import Mathlib

/-!
Verification of `tablemd.py`: a single-file utility that enumerates database
tables (Oracle / SQL Server backends), collects column metadata and renders
one Markdown document per table.  Text is modelled as `List Char`; machine
integers from the catalogs are modelled as `Int`; the database itself is
external, so catalog query results are inputs of the model.
-/

namespace Tablemd

/-- Text, modelled as a list of characters. -/
abbrev Str := List Char

/-- The whitespace set of Python's `str.strip()` with no argument. -/
def pyIsSpace (c : Char) : Bool :=
  c = ' ' || c = '\t' || c = '\n' || c = '\r' || c = '\x0b' || c = '\x0c'

/-- Python `s.strip()`: drop leading and trailing whitespace. -/
def pyStrip (s : Str) : Str :=
  ((s.dropWhile pyIsSpace).reverse.dropWhile pyIsSpace).reverse

/-- Python `s.replace("|", "\\|")` from `md_escape` (tablemd.py line 51). -/
def md_escape : Str → Str
  | [] => []
  | c :: cs => if c = '|' then '\\' :: '|' :: md_escape cs else c :: md_escape cs

/-- Decimal digit character, as produced by Python's integer formatting. -/
def digChar (n : Nat) : Char :=
  match n with
  | 0 => '0' | 1 => '1' | 2 => '2' | 3 => '3' | 4 => '4'
  | 5 => '5' | 6 => '6' | 7 => '7' | 8 => '8' | _ => '9'

/-- Decimal rendering of a natural number, with explicit fuel so that the
definition is structural and kernel-reducible. -/
def natCharsAux : Nat → Nat → Str
  | 0, _ => []
  | fuel + 1, n =>
      if n < 10 then [digChar n]
      else natCharsAux fuel (n / 10) ++ [digChar (n % 10)]

/-- Python `str(int(n))` for a non-negative integer value. -/
def natChars (n : Nat) : Str := natCharsAux (n + 1) n

/-- Python `str(int(i))` / f-string formatting of an integer. -/
def intChars (i : Int) : Str :=
  if i < 0 then '-' :: natChars (-i).toNat else natChars i.toNat

/-- Python `"\n".join(lines)`. -/
def joinNl : List Str → Str
  | [] => []
  | [l] => l
  | l :: l2 :: ls => l ++ '\n' :: joinNl (l2 :: ls)

/-- Split a text into its lines at each `'\n'` (inverse of `joinNl` on
newline-free pieces). -/
def splitNl : Str → List Str
  | [] => [[]]
  | c :: cs =>
      let r := splitNl cs
      if c = '\n' then [] :: r else (c :: r.headD []) :: r.tail

/-- Count the pipe characters that act as Markdown cell separators: a `'|'`
whose immediately preceding character is not a backslash (`p` is the character
preceding the current suffix; at the start of a row it is taken to be `' '`). -/
def nakedPipes : Char → Str → Nat
  | _, [] => 0
  | p, c :: cs => (if c = '|' && p != '\\' then 1 else 0) + nakedPipes c cs

/-- Separator pipes of a whole row. -/
def sepPipes (s : Str) : Nat := nakedPipes ' ' s

/-! ## Config loader (`load_properties`, tablemd.py lines 36-46) -/

/-- The in-memory configuration: a key → value map (Python `dict`). -/
abbrev PropsMap := Str → Option Str

def emptyProps : PropsMap := fun _ => none

/-- Python `conf[k] = v` (insert or overwrite). -/
def setProp (m : PropsMap) (k v : Str) : PropsMap :=
  fun x => if x = k then some v else m x

/-- Python `line.split("=", 1)`: split at the first `'='`. -/
def splitFirstEq : Str → Str × Str
  | [] => ([], [])
  | c :: cs =>
      if c = '=' then ([], cs)
      else
        let p := splitFirstEq cs
        (c :: p.1, p.2)

/-- One iteration of the loop in `load_properties`: strip the line, skip it
when empty or a `#` comment, otherwise split on the first `'='` (if any) into
a stripped key and value and store them; a line without `'='` is dropped. -/
def processLine (m : PropsMap) (line : Str) : PropsMap :=
  let s := pyStrip line
  if s = [] then m
  else if s.head? = some '#' then m
  else if '=' ∈ s then
    setProp m (pyStrip (splitFirstEq s).1) (pyStrip (splitFirstEq s).2)
  else m

/-- Function `load_properties`, on the lines of the file. -/
def load_properties (lines : List Str) : PropsMap :=
  lines.foldl processLine emptyProps

/-- The key/value pair a single line contributes, if any. -/
def parseLine (line : Str) : Option (Str × Str) :=
  let s := pyStrip line
  if s = [] then none
  else if s.head? = some '#' then none
  else if '=' ∈ s then
    some (pyStrip (splitFirstEq s).1, pyStrip (splitFirstEq s).2)
  else none

/-- The value of the LAST line of `lines` that parses to key `k`, if any. -/
def lastDef (lines : List Str) (k : Str) : Option Str :=
  lines.reverse.findSome? fun l =>
    (parseLine l).bind fun p => if p.1 = k then some p.2 else none

/-! ## Pattern dispatch (`is_like_pattern`, tablemd.py lines 58-60, and the
table enumerators, lines 87-113 and 249-261) -/

/-- Predicate `is_like_pattern`: the string contains `%` or `_`. -/
def is_like_pattern (pat : Str) : Bool := '%' ∈ pat || '_' ∈ pat

/-- Which catalog predicate a table enumerator uses. -/
inductive QueryPath | likeMatch | exactMatch
deriving DecidableEq

/-- The branch taken by `oracle_fetch_tables` (LIKE query vs `=` query). -/
def oracle_fetch_path (pat : Str) : QueryPath :=
  if is_like_pattern pat then .likeMatch else .exactMatch

/-- The discriminator bound by `mssql_fetch_tables`
(`like = 1 if is_like_pattern(table_pat) else 0`). -/
def mssql_like_flag (pat : Str) : Nat :=
  if is_like_pattern pat then 1 else 0

/-- The branch of the single SQL Server query that can match rows:
`(? = 1 AND ... LIKE ...) OR (? = 0 AND ... = ...)`. -/
def mssql_fetch_path (pat : Str) : QueryPath :=
  if mssql_like_flag pat = 1 then .likeMatch else .exactMatch

/-! ## Foreign-key map (tablemd.py lines 170-175 and 313-318) -/

/-- A foreign-key catalog row: constrained column, referenced table,
referenced column. -/
abbrev FkRow := Str × Str × Str

/-- The loop `for col, rtbl, rcol in ...: fk_map[col] = f"{rtbl}.{rcol}"`,
shared verbatim by `oracle_collect_meta` and `mssql_collect_meta`. -/
def buildFkMap (rows : List FkRow) : PropsMap :=
  rows.foldl (fun m r => setProp m r.1 (r.2.1 ++ '.' :: r.2.2)) emptyProps

/-- The last catalog row constraining column `col`, if any. -/
def lastFkRow (rows : List FkRow) (col : Str) : Option FkRow :=
  rows.reverse.find? fun r => r.1 = col

/-! ## Column descriptors and Markdown cells (tablemd.py lines 178-207 and
321-347).  Catalog numbers are modelled as `Int`; a SQL `NULL` is `none`. -/

/-- A row of the Oracle column query (`all_tab_columns` joined with
`all_col_comments`). -/
structure OracleCol where
  column_name : Str
  data_type : Str
  data_length : Option Int
  data_precision : Option Int
  data_scale : Option Int
  nullable : Str
  data_default : Option Str
  column_comment : Option Str

/-- A row of the SQL Server column query (`sys.columns` etc.). -/
structure MssqlCol where
  column_name : Str
  data_type : Str
  max_length : Option Int
  precision : Option Int
  scale : Option Int
  is_nullable : Bool
  data_default : Option Str
  column_comment : Option Str

/-- The Length/Precision cell of `oracle_write_md` (lines 188-195). -/
def oracle_lens (c : OracleCol) : Str :=
  match c.data_precision with
  | some p =>
      match c.data_scale with
      | some s => intChars p ++ ',' :: intChars s
      | none => intChars p
  | none =>
      match c.data_length with
      | some l => intChars l
      | none => []

/-- Python truthiness of the optional number `prec` in `mssql_write_md`. -/
def pyTruthy : Option Int → Bool
  | none => false
  | some i => i != 0

/-- The Length/Precision cell of `mssql_write_md` (lines 329-336):
`if prec and scale is not None and int(prec) != 0`. -/
def mssql_lens (c : MssqlCol) : Str :=
  if pyTruthy c.precision && c.scale.isSome && (c.precision.getD 0 != 0) then
    intChars (c.precision.getD 0) ++ ',' :: intChars (c.scale.getD 0)
  else
    match c.max_length with
    | some l => intChars l
    | none => []

/-- The Length/Precision rule as the specification words it: `precision,scale`
when a precision is present and the scale is present and NON-TRIVIAL (nonzero),
`precision` alone when the scale is absent or trivial, else the max length if
present, else empty.  Stated for comparison with the source cells. -/
def claimLens (precision scale maxlen : Option Int) : Str :=
  match precision with
  | some p =>
      match scale with
      | some s => if s ≠ 0 then intChars p ++ ',' :: intChars s else intChars p
      | none => intChars p
  | none =>
      match maxlen with
      | some l => intChars l
      | none => []

/-- Nullable cell of `oracle_write_md`: `"Y" if (c["nullable"] == "Y") else "N"`. -/
def oracle_nullable (c : OracleCol) : Str :=
  if c.nullable = ['Y'] then ['Y'] else ['N']

/-- Nullable cell of `mssql_write_md`: `"Y" if c["is_nullable"] else "N"`. -/
def mssql_nullable (c : MssqlCol) : Str :=
  if c.is_nullable then ['Y'] else ['N']

/-- Default cell (both backends): `md_escape((default or "").strip())`. -/
def default_cell (d : Option Str) : Str :=
  md_escape (pyStrip (d.getD []))

/-- Comment cell (both backends): `md_escape(comment or "")`. -/
def comment_cell (d : Option Str) : Str :=
  md_escape (d.getD [])

/-- PK cell (both backends): `"Y" if name in pk_cols else ""`. -/
def pk_cell (pk_cols : List Str) (name : Str) : Str :=
  if name ∈ pk_cols then ['Y'] else []

/-- FK cell (both backends): `fk_to = fk_map.get(name, "")`, then
`f"FK → \x60{fk_to}\x60" if fk_to else ""`. -/
def fk_cell (fk_map : PropsMap) (name : Str) : Str :=
  let fk_to := (fk_map name).getD []
  if fk_to = [] then [] else "FK → `".toList ++ fk_to ++ ['`']

/-- A data row of `oracle_write_md` (line 204). -/
def oracle_row (pk_cols : List Str) (fk_map : PropsMap) (c : OracleCol) : Str :=
  "| ".toList ++ c.column_name ++
  " | ".toList ++ c.data_type ++
  " | ".toList ++ oracle_lens c ++
  " | ".toList ++ oracle_nullable c ++
  " | ".toList ++ default_cell c.data_default ++
  " | ".toList ++ pk_cell pk_cols c.column_name ++
  " | ".toList ++ fk_cell fk_map c.column_name ++
  " | ".toList ++ comment_cell c.column_comment ++
  " |".toList

/-- A data row of `mssql_write_md` (line 344). -/
def mssql_row (pk_cols : List Str) (fk_map : PropsMap) (c : MssqlCol) : Str :=
  "| ".toList ++ c.column_name ++
  " | ".toList ++ c.data_type ++
  " | ".toList ++ mssql_lens c ++
  " | ".toList ++ mssql_nullable c ++
  " | ".toList ++ default_cell c.data_default ++
  " | ".toList ++ pk_cell pk_cols c.column_name ++
  " | ".toList ++ fk_cell fk_map c.column_name ++
  " | ".toList ++ comment_cell c.column_comment ++
  " |".toList

/-- The fixed Markdown header row shared by both renderers. -/
def header_row : Str :=
  "| 欄位 | 資料型別 | 長度/精度 | Nullable | 預設值 | 主鍵 | 外鍵 | 說明 |".toList

/-- The fixed alignment separator row shared by both renderers. -/
def align_row : Str :=
  "|---|---|---:|:---:|:---:|:---:|:---:|---|".toList

/-- The heading line: `f"## 表格名稱:\x7btable\x7d\n"` (note the trailing
newline inside the element, which yields the blank line after the heading). -/
def heading_line (table : Str) : Str :=
  "## 表格名稱:".toList ++ table ++ ['\n']

/-- The full document text produced by `oracle_write_md`:
`"\n".join(lines)` over heading, header, separator and one row per column. -/
def oracle_write_md (table : Str) (cols : List OracleCol)
    (pk_cols : List Str) (fk_map : PropsMap) : Str :=
  joinNl (heading_line table :: header_row :: align_row ::
    cols.map (oracle_row pk_cols fk_map))

/-- The full document text produced by `mssql_write_md`. -/
def mssql_write_md (table : Str) (cols : List MssqlCol)
    (pk_cols : List Str) (fk_map : PropsMap) : Str :=
  joinNl (heading_line table :: header_row :: align_row ::
    cols.map (mssql_row pk_cols fk_map))

/-! ## The `main` entry point (tablemd.py lines 353-402).  The database and
filesystem are external, so the model takes the catalog answers as inputs:
the run's table list and per-table metadata for whichever backend is selected.
Interpolated details of the console messages (paths, patterns) are kept where
they are simple and elided where they only echo configuration. -/

/-- Python `s.lower()`. -/
def pyLower (s : Str) : Str := s.map Char.toLower

/-- Everything `main` reads from the outside world. -/
structure Env where
  /-- Python `sys.argv` (element 0 is the script name). -/
  argv : List Str
  /-- The lines of `tablemd.properties`; `none` when the file does not exist. -/
  propLines : Option (List Str)
  /-- Result of `oracle_fetch_tables` for this run's pattern. -/
  oracleTables : List Str
  /-- Result of `oracle_collect_meta` per table. -/
  oracleMeta : Str → List OracleCol × List Str × List FkRow
  /-- Result of `mssql_fetch_tables` for this run's pattern. -/
  mssqlTables : List Str
  /-- Result of `mssql_collect_meta` per table. -/
  mssqlMeta : Str → List MssqlCol × List Str × List FkRow

/-- The observable outcome of a run: `sys.exit` status (0 for a normal
return), console messages in order, and the files written as
(path, content) pairs. -/
structure RunResult where
  exitCode : Nat
  messages : List Str
  files : List (Str × Str)

def usage_msg : Str :=
  "用法：tablemd.bat <TABLE_NAME 或 LIKE 樣式（含%/_）>".toList

def missing_conf_msg : Str := "找不到設定檔：tablemd.properties".toList

def bad_dbtype_msg : Str := "DB_TYPE 僅支援：oracle 或 sqlserver".toList

def oracle_nomatch_msg : Str := "[Oracle] 無符合的表".toList

def mssql_nomatch_msg : Str := "[SQL Server] 無符合的表".toList

/-- Path `out_dir / ("TABLE_" + t + ".md")`. -/
def table_file_path (out_dir t : Str) : Str :=
  out_dir ++ '/' :: "TABLE_".toList ++ t ++ ".md".toList

/-- The model of `main`. -/
def mainModel (env : Env) : RunResult :=
  if env.argv.length < 2 then
    { exitCode := 1, messages := [usage_msg], files := [] }
  else
    match env.propLines with
    | none => { exitCode := 2, messages := [missing_conf_msg], files := [] }
    | some lines =>
        let conf := load_properties lines
        let db_type := pyLower ((conf "DB_TYPE".toList).getD [])
        let output_base := (conf "OUTPUT_BASE".toList).getD "output".toList
        if db_type = "oracle".toList then
          let user_id := (conf "ORA_USER".toList).getD []
          let out_dir :=
            output_base ++ '/' ::
              (if user_id = [] then "ORACLE".toList else user_id)
          if env.oracleTables = [] then
            { exitCode := 0, messages := [oracle_nomatch_msg], files := [] }
          else
            { exitCode := 0
              messages := env.oracleTables.map fun t =>
                "[Oracle] 已產出：".toList ++ table_file_path out_dir t
              files := env.oracleTables.map fun t =>
                let meta := env.oracleMeta t
                (table_file_path out_dir t,
                  oracle_write_md t meta.1 meta.2.1 (buildFkMap meta.2.2)) }
        else if db_type = "sqlserver".toList then
          let db_id :=
            match conf "MSSQL_DBNAME".toList with
            | some v => v
            | none => "MSSQL".toList
          let out_dir := output_base ++ '/' :: db_id
          if env.mssqlTables = [] then
            { exitCode := 0, messages := [mssql_nomatch_msg], files := [] }
          else
            { exitCode := 0
              messages := env.mssqlTables.map fun t =>
                "[SQL Server] 已產出：".toList ++ table_file_path out_dir t
              files := env.mssqlTables.map fun t =>
                let meta := env.mssqlMeta t
                (table_file_path out_dir t,
                  mssql_write_md t meta.1 meta.2.1 (buildFkMap meta.2.2)) }
        else
          { exitCode := 3, messages := [bad_dbtype_msg], files := [] }

/-- A concrete environment with empty catalogs, for evaluating `mainModel`. -/
def envFor (argv : List Str) (propLines : Option (List Str)) : Env :=
  { argv := argv, propLines := propLines,
    oracleTables := [], oracleMeta := fun _ => ([], [], []),
    mssqlTables := [], mssqlMeta := fun _ => ([], [], []) }


/-! ## Helper lemmas -/

-- Basic lemmas about the text helpers.

theorem md_escape_no_pipe {s : Str} (h : '|' ∉ s) : md_escape s = s := by
  induction s with
  | nil => rfl
  | cons c cs ih =>
      simp only [List.mem_cons, not_or] at h
      simp [md_escape, Ne.symm h.1, ih h.2]

theorem md_escape_append_pipe {a : Str} (b : Str) (h : '|' ∉ a) :
    md_escape (a ++ '|' :: b) = a ++ '\\' :: '|' :: md_escape b := by
  induction a with
  | nil => simp [md_escape]
  | cons c cs ih =>
      simp only [List.mem_cons, not_or] at h
      simp [md_escape, Ne.symm h.1, ih h.2]

theorem nakedPipes_md_escape (s : Str) (p : Char) :
    nakedPipes p (md_escape s) = 0 := by
  induction s generalizing p with
  | nil => rfl
  | cons c cs ih =>
      by_cases hc : c = '|'
      · subst hc
        simp [md_escape, nakedPipes, ih]
      · simp [md_escape, hc, nakedPipes, ih]

theorem nakedPipes_append (a b : Str) (p : Char) :
    nakedPipes p (a ++ b) = nakedPipes p a + nakedPipes (a.getLastD p) b := by
  induction a generalizing p with
  | nil => simp [nakedPipes]
  | cons c cs ih =>
      simp only [List.cons_append, nakedPipes, List.getLastD_cons, List.append_eq]
      rw [ih]
      omega

theorem mem_natCharsAux {fuel n : Nat} {c : Char} (h : c ∈ natCharsAux fuel n) :
    ∃ k, c = digChar k := by
  induction fuel generalizing n with
  | zero => simp [natCharsAux] at h
  | succ fuel ih =>
      simp only [natCharsAux] at h
      by_cases hn : n < 10
      · rw [if_pos hn, List.mem_singleton] at h
        exact ⟨n, h⟩
      · rw [if_neg hn, List.mem_append, List.mem_singleton] at h
        rcases h with h | h
        · exact ih h
        · exact ⟨n % 10, h⟩

theorem digChar_not_nl (k : Nat) : digChar k ≠ '\n' := by
  unfold digChar
  split <;> decide

theorem digChar_not_pipe (k : Nat) : digChar k ≠ '|' := by
  unfold digChar
  split <;> decide

theorem natChars_not_nl {n : Nat} : '\n' ∉ natChars n := by
  intro h
  rcases mem_natCharsAux h with ⟨k, hk⟩
  exact digChar_not_nl k hk.symm

theorem natChars_not_pipe {n : Nat} : '|' ∉ natChars n := by
  intro h
  rcases mem_natCharsAux h with ⟨k, hk⟩
  exact digChar_not_pipe k hk.symm

theorem intChars_not_nl {i : Int} : '\n' ∉ intChars i := by
  unfold intChars
  split
  · intro h
    rw [List.mem_cons] at h
    rcases h with h | h
    · exact absurd h (by decide)
    · exact natChars_not_nl h
  · exact natChars_not_nl

theorem intChars_not_pipe {i : Int} : '|' ∉ intChars i := by
  unfold intChars
  split
  · intro h
    rw [List.mem_cons] at h
    rcases h with h | h
    · exact absurd h (by decide)
    · exact natChars_not_pipe h
  · exact natChars_not_pipe

theorem splitNl_no_nl {s : Str} (h : '\n' ∉ s) : splitNl s = [s] := by
  induction s with
  | nil => rfl
  | cons c cs ih =>
      simp only [List.mem_cons, not_or] at h
      simp [splitNl, Ne.symm h.1, ih h.2]

theorem splitNl_ne_nil (s : Str) : splitNl s ≠ [] := by
  cases s with
  | nil => simp [splitNl]
  | cons c cs =>
      simp only [splitNl]
      by_cases hc : c = '\n' <;> simp [hc]

theorem splitNl_append_nl {a : Str} (b : Str) (h : '\n' ∉ a) :
    splitNl (a ++ '\n' :: b) = a :: splitNl b := by
  induction a with
  | nil => simp [splitNl]
  | cons c cs ih =>
      simp only [List.mem_cons, not_or] at h
      simp only [List.cons_append, splitNl, if_neg (Ne.symm h.1), List.append_eq]
      rw [ih h.2]
      simp

theorem splitNl_joinNl {ls : List Str} (hne : ls ≠ [])
    (h : ∀ l ∈ ls, '\n' ∉ l) : splitNl (joinNl ls) = ls := by
  induction ls with
  | nil => exact absurd rfl hne
  | cons l rest ih =>
      cases rest with
      | nil =>
          simp only [joinNl]
          exact splitNl_no_nl (h l (by simp))
      | cons l2 rest2 =>
          simp only [joinNl]
          rw [splitNl_append_nl _ (h l (by simp))]
          rw [ih (by simp) (fun x hx => h x (List.mem_cons_of_mem _ hx))]

theorem pyStrip_subset {s : Str} {c : Char} (h : c ∈ pyStrip s) : c ∈ s := by
  unfold pyStrip at h
  rw [List.mem_reverse] at h
  have h2 := (List.dropWhile_sublist (l := (s.dropWhile pyIsSpace).reverse)
    (p := pyIsSpace)).subset h
  rw [List.mem_reverse] at h2
  exact (List.dropWhile_sublist (l := s) (p := pyIsSpace)).subset h2

theorem mem_md_escape {c : Char} {s : Str} (h : c ∈ md_escape s) :
    c = '\\' ∨ c ∈ s := by
  induction s with
  | nil => simp [md_escape] at h
  | cons d cs ih =>
      by_cases hd : d = '|'
      · subst hd
        have hu : md_escape ('|' :: cs) = '\\' :: '|' :: md_escape cs := by
          simp [md_escape]
        rw [hu, List.mem_cons, List.mem_cons] at h
        cases h with
        | inl h1 => exact Or.inl h1
        | inr h1 =>
            cases h1 with
            | inl h2 => exact Or.inr (by simp [h2])
            | inr h2 =>
                cases ih h2 with
                | inl h3 => exact Or.inl h3
                | inr h3 => exact Or.inr (List.mem_cons_of_mem _ h3)
      · have hu : md_escape (d :: cs) = d :: md_escape cs := by simp [md_escape, hd]
        rw [hu, List.mem_cons] at h
        cases h with
        | inl h1 => exact Or.inr (by simp [h1])
        | inr h1 =>
            cases ih h1 with
            | inl h3 => exact Or.inl h3
            | inr h3 => exact Or.inr (List.mem_cons_of_mem _ h3)

theorem md_escape_not_nl {s : Str} (h : '\n' ∉ s) : '\n' ∉ md_escape s := by
  intro hmem
  rcases mem_md_escape hmem with hh | hh
  · exact absurd hh (by decide)
  · exact h hh


theorem processLine_parseLine (m : PropsMap) (line : Str) :
    processLine m line =
      match parseLine line with
      | none => m
      | some p => setProp m p.1 p.2 := by
  unfold processLine parseLine
  by_cases h0 : pyStrip line = []
  · simp [h0]
  · by_cases h1 : (pyStrip line).head? = some '#'
    · simp [h0, h1]
    · by_cases h2 : '=' ∈ pyStrip line
      · simp [h0, h1, h2]
      · simp [h0, h1, h2]

theorem splitFirstEq_spec {a : Str} (b : Str) (h : '=' ∉ a) :
    splitFirstEq (a ++ '=' :: b) = (a, b) := by
  induction a with
  | nil => simp [splitFirstEq]
  | cons c cs ih =>
      simp only [List.mem_cons, not_or] at h
      simp only [List.cons_append, splitFirstEq, if_neg (Ne.symm h.1), List.append_eq]
      rw [ih h.2]

theorem load_properties_from (lines : List Str) :
    ∀ (m : PropsMap) (k : Str),
      lines.foldl processLine m k =
        ((lastDef lines k).rec (m k) fun v => some v : Option Str) := by
  induction lines with
  | nil => intro m k; simp [lastDef]
  | cons l ls ih =>
      intro m k
      simp only [List.foldl_cons]
      rw [ih]
      have hld : lastDef (l :: ls) k =
          ((lastDef ls k).rec
            ((parseLine l).bind fun p => if p.1 = k then some p.2 else none)
            fun v => some v : Option Str) := by
        unfold lastDef
        simp only [List.reverse_cons, List.findSome?_append]
        cases (ls.reverse.findSome? fun l2 =>
            (parseLine l2).bind fun p => if p.1 = k then some p.2 else none) with
        | none =>
            simp only [List.findSome?]
            cases (parseLine l).bind fun p => if p.1 = k then some p.2 else none <;>
              rfl
        | some v => simp
      rw [hld]
      cases hls : lastDef ls k with
      | some v => simp
      | none =>
          simp only []
          rw [processLine_parseLine]
          cases hpl : parseLine l with
          | none => simp
          | some p =>
              simp only [setProp, Option.bind_some]
              by_cases hk : p.1 = k
              · simp [hk]
              · have hk2 : ¬k = p.1 := fun hh => hk hh.symm
                simp [hk, hk2]


theorem buildFkMap_from (rows : List FkRow) :
    ∀ (m : PropsMap) (col : Str),
      (rows.foldl (fun m2 r => setProp m2 r.1 (r.2.1 ++ '.' :: r.2.2)) m) col =
        ((lastFkRow rows col).rec (m col)
          (fun r => some (r.2.1 ++ '.' :: r.2.2)) : Option Str) := by
  induction rows with
  | nil => intro m col; simp [lastFkRow]
  | cons r rs ih =>
      intro m col
      simp only [List.foldl_cons]
      rw [ih]
      have hlr : lastFkRow (r :: rs) col =
          ((lastFkRow rs col).rec
            (if r.1 = col then some r else none)
            (fun r2 => some r2) : Option FkRow) := by
        unfold lastFkRow
        simp only [List.reverse_cons, List.find?_append]
        cases (rs.reverse.find? fun r2 => r2.1 = col) with
        | none => by_cases hr : r.1 = col <;> simp [List.find?, hr]
        | some v => simp
      rw [hlr]
      cases hrs : lastFkRow rs col with
      | some v => simp
      | none =>
          simp only [setProp]
          by_cases hr : r.1 = col
          · simp [hr]
          · have hr2 : ¬col = r.1 := fun hh => hr hh.symm
            simp [hr, hr2]

theorem nakedPipes_no_pipe {s : Str} (h : '|' ∉ s) :
    ∀ q, nakedPipes q s = 0 := by
  induction s with
  | nil => intro q; rfl
  | cons c cs ih =>
      intro q
      simp only [List.mem_cons, not_or] at h
      simp [nakedPipes, Ne.symm h.1, ih h.2]

theorem np_startBar (rest : Str) :
    nakedPipes ' ' ("| ".toList ++ rest) = 1 + nakedPipes ' ' rest := by
  rw [show ("| ".toList ++ rest : Str) = '|' :: ' ' :: rest from rfl]
  simp [nakedPipes]

theorem np_midSep (q : Char) (rest : Str) :
    nakedPipes q (" | ".toList ++ rest) = 1 + nakedPipes ' ' rest := by
  rw [show (" | ".toList ++ rest : Str) = ' ' :: '|' :: ' ' :: rest from rfl]
  simp [nakedPipes]

theorem np_endBar (q : Char) : nakedPipes q (" |".toList) = 1 := by
  simp [nakedPipes]

/-- Separator-pipe count of a data row built like both renderers do:
9 fixed separators plus whatever each cell contributes. -/
theorem sepPipes_md_row (c1 c2 c3 c4 c5 c6 c7 c8 : Str) :
    sepPipes ("| ".toList ++ c1 ++ " | ".toList ++ c2 ++ " | ".toList ++ c3 ++
        " | ".toList ++ c4 ++ " | ".toList ++ c5 ++ " | ".toList ++ c6 ++
        " | ".toList ++ c7 ++ " | ".toList ++ c8 ++ " |".toList) =
      9 + nakedPipes ' ' c1 + nakedPipes ' ' c2 + nakedPipes ' ' c3 +
        nakedPipes ' ' c4 + nakedPipes ' ' c5 + nakedPipes ' ' c6 +
        nakedPipes ' ' c7 + nakedPipes ' ' c8 := by
  unfold sepPipes
  simp only [List.append_assoc]
  rw [np_startBar, nakedPipes_append, np_midSep, nakedPipes_append, np_midSep,
    nakedPipes_append, np_midSep, nakedPipes_append, np_midSep,
    nakedPipes_append, np_midSep, nakedPipes_append, np_midSep,
    nakedPipes_append, np_midSep, nakedPipes_append, np_endBar]
  omega

theorem oracle_lens_chars {x : Char} (c : OracleCol) (h : x ∈ oracle_lens c) :
    x = ',' ∨ ∃ i : Int, x ∈ intChars i := by
  cases hp : c.data_precision with
  | some p =>
      cases hs : c.data_scale with
      | some s =>
          simp only [oracle_lens, hp, hs] at h
          rcases List.mem_append.mp h with h2 | h2
          · exact Or.inr ⟨p, h2⟩
          · rcases List.mem_cons.mp h2 with h3 | h3
            · exact Or.inl h3
            · exact Or.inr ⟨s, h3⟩
      | none =>
          simp only [oracle_lens, hp, hs] at h
          exact Or.inr ⟨p, h⟩
  | none =>
      cases hl : c.data_length with
      | some l =>
          simp only [oracle_lens, hp, hl] at h
          exact Or.inr ⟨l, h⟩
      | none =>
          simp only [oracle_lens, hp, hl] at h
          exact absurd h (List.not_mem_nil x)

theorem mssql_lens_chars {x : Char} (c : MssqlCol) (h : x ∈ mssql_lens c) :
    x = ',' ∨ ∃ i : Int, x ∈ intChars i := by
  by_cases hc : (pyTruthy c.precision && c.scale.isSome &&
      (c.precision.getD 0 != 0)) = true
  · rw [mssql_lens, if_pos hc] at h
    rcases List.mem_append.mp h with h2 | h2
    · exact Or.inr ⟨c.precision.getD 0, h2⟩
    · rcases List.mem_cons.mp h2 with h3 | h3
      · exact Or.inl h3
      · exact Or.inr ⟨c.scale.getD 0, h3⟩
  · rw [mssql_lens, if_neg hc] at h
    cases hl : c.max_length with
    | some l =>
        rw [hl] at h
        exact Or.inr ⟨l, h⟩
    | none =>
        rw [hl] at h
        exact absurd h (List.not_mem_nil x)

theorem oracle_lens_no_pipe (c : OracleCol) : '|' ∉ oracle_lens c := by
  intro h
  rcases oracle_lens_chars c h with h2 | ⟨i, h2⟩
  · exact absurd h2 (by decide)
  · exact intChars_not_pipe h2

theorem mssql_lens_no_pipe (c : MssqlCol) : '|' ∉ mssql_lens c := by
  intro h
  rcases mssql_lens_chars c h with h2 | ⟨i, h2⟩
  · exact absurd h2 (by decide)
  · exact intChars_not_pipe h2

theorem oracle_lens_no_nl (c : OracleCol) : '\n' ∉ oracle_lens c := by
  intro h
  rcases oracle_lens_chars c h with h2 | ⟨i, h2⟩
  · exact absurd h2 (by decide)
  · exact intChars_not_nl h2

theorem mssql_lens_no_nl (c : MssqlCol) : '\n' ∉ mssql_lens c := by
  intro h
  rcases mssql_lens_chars c h with h2 | ⟨i, h2⟩
  · exact absurd h2 (by decide)
  · exact intChars_not_nl h2

theorem oracle_nullable_no_nl (c : OracleCol) : '\n' ∉ oracle_nullable c := by
  unfold oracle_nullable
  split <;> decide

theorem oracle_nullable_no_pipe (c : OracleCol) : '|' ∉ oracle_nullable c := by
  unfold oracle_nullable
  split <;> decide

theorem mssql_nullable_no_nl (c : MssqlCol) : '\n' ∉ mssql_nullable c := by
  unfold mssql_nullable
  split <;> decide

theorem mssql_nullable_no_pipe (c : MssqlCol) : '|' ∉ mssql_nullable c := by
  unfold mssql_nullable
  split <;> decide

theorem pk_cell_no_nl (pk_cols : List Str) (name : Str) :
    '\n' ∉ pk_cell pk_cols name := by
  unfold pk_cell
  split <;> decide

theorem pk_cell_no_pipe (pk_cols : List Str) (name : Str) :
    '|' ∉ pk_cell pk_cols name := by
  unfold pk_cell
  split <;> decide

theorem default_cell_no_nl (d : Option Str)
    (h : ∀ s, d = some s → '\n' ∉ s) : '\n' ∉ default_cell d := by
  unfold default_cell
  apply md_escape_not_nl
  intro hmem
  have hmem2 := pyStrip_subset hmem
  cases d with
  | none => exact absurd hmem2 (by decide)
  | some s => exact h s rfl hmem2

theorem comment_cell_no_nl (d : Option Str)
    (h : ∀ s, d = some s → '\n' ∉ s) : '\n' ∉ comment_cell d := by
  unfold comment_cell
  apply md_escape_not_nl
  intro hmem
  cases d with
  | none => exact absurd hmem (by decide)
  | some s => exact h s rfl hmem

theorem fk_cell_no_nl (fk_map : PropsMap) (name : Str)
    (h : ∀ t, fk_map name = some t → '\n' ∉ t) :
    '\n' ∉ fk_cell fk_map name := by
  unfold fk_cell
  intro hmem
  by_cases he : ((fk_map name).getD [] : Str) = []
  · rw [if_pos he] at hmem
    exact absurd hmem (by decide)
  · rw [if_neg he] at hmem
    rcases List.mem_append.mp hmem with h2 | h2
    · rcases List.mem_append.mp h2 with h3 | h3
      · exact absurd h3 (by decide)
      · cases hd : fk_map name with
        | none => rw [hd] at h3; exact absurd h3 (by decide)
        | some t => rw [hd] at h3; exact h t hd h3
    · exact absurd h2 (by decide)

theorem oracle_row_no_nl (pk_cols : List Str) (fk_map : PropsMap)
    (c : OracleCol)
    (h1 : '\n' ∉ c.column_name) (h2 : '\n' ∉ c.data_type)
    (h3 : ∀ s, c.data_default = some s → '\n' ∉ s)
    (h4 : ∀ s, c.column_comment = some s → '\n' ∉ s)
    (h5 : ∀ t, fk_map c.column_name = some t → '\n' ∉ t) :
    '\n' ∉ oracle_row pk_cols fk_map c := by
  unfold oracle_row
  intro hmem
  simp only [List.mem_append, or_assoc] at hmem
  rcases hmem with h|h|h|h|h|h|h|h|h|h|h|h|h|h|h|h|h
  all_goals first
    | exact absurd h (by decide)
    | exact h1 h
    | exact h2 h
    | exact oracle_lens_no_nl c h
    | exact oracle_nullable_no_nl c h
    | exact default_cell_no_nl _ h3 h
    | exact pk_cell_no_nl _ _ h
    | exact fk_cell_no_nl _ _ h5 h
    | exact comment_cell_no_nl _ h4 h

theorem mssql_row_no_nl (pk_cols : List Str) (fk_map : PropsMap)
    (c : MssqlCol)
    (h1 : '\n' ∉ c.column_name) (h2 : '\n' ∉ c.data_type)
    (h3 : ∀ s, c.data_default = some s → '\n' ∉ s)
    (h4 : ∀ s, c.column_comment = some s → '\n' ∉ s)
    (h5 : ∀ t, fk_map c.column_name = some t → '\n' ∉ t) :
    '\n' ∉ mssql_row pk_cols fk_map c := by
  unfold mssql_row
  intro hmem
  simp only [List.mem_append, or_assoc] at hmem
  rcases hmem with h|h|h|h|h|h|h|h|h|h|h|h|h|h|h|h|h
  all_goals first
    | exact absurd h (by decide)
    | exact h1 h
    | exact h2 h
    | exact mssql_lens_no_nl c h
    | exact mssql_nullable_no_nl c h
    | exact default_cell_no_nl _ h3 h
    | exact pk_cell_no_nl _ _ h
    | exact fk_cell_no_nl _ _ h5 h
    | exact comment_cell_no_nl _ h4 h

/-- Splitting a rendered document into lines: the heading (whose trailing
`'\n'` yields the blank line), header, separator, then the data rows. -/
theorem splitNl_doc (table : Str) (rows : List Str) (htable : '\n' ∉ table)
    (hrows : ∀ r ∈ rows, '\n' ∉ r) :
    splitNl (joinNl (heading_line table :: header_row :: align_row :: rows)) =
      ("## 表格名稱:".toList ++ table) :: [] :: header_row :: align_row ::
        rows := by
  have hA : '\n' ∉ "## 表格名稱:".toList ++ table := by
    intro h
    rcases List.mem_append.mp h with h | h
    · exact absurd h (by decide)
    · exact htable h
  have hjoin : joinNl (heading_line table :: header_row :: align_row :: rows) =
      ("## 表格名稱:".toList ++ table) ++ '\n' ::
        ('\n' :: joinNl (header_row :: align_row :: rows)) := by
    rw [show joinNl (heading_line table :: header_row :: align_row :: rows) =
        heading_line table ++ '\n' :: joinNl (header_row :: align_row :: rows)
      from rfl]
    unfold heading_line
    simp only [List.append_assoc, List.cons_append, List.nil_append]
  rw [hjoin, splitNl_append_nl _ hA]
  have hsp : splitNl ('\n' :: joinNl (header_row :: align_row :: rows)) =
      [] :: splitNl (joinNl (header_row :: align_row :: rows)) := rfl
  rw [hsp, splitNl_joinNl (List.cons_ne_nil _ _)]
  intro l hl
  rcases List.mem_cons.mp hl with h | hl2
  · subst h; decide
  · rcases List.mem_cons.mp hl2 with h | hl3
    · subst h; decide
    · exact hrows l hl3

/-! ## Claim theorems -/

/-- C2: for every operator-supplied pattern string, both backends take the
SQL LIKE path exactly when the string contains `%` or `_`, and the exact
(case-insensitive) match path otherwise. -/
theorem claim_C2_pattern_dispatch :
    ∀ pat : Str,
      (is_like_pattern pat = true ↔ '%' ∈ pat ∨ '_' ∈ pat) ∧
      (oracle_fetch_path pat = QueryPath.likeMatch ↔ '%' ∈ pat ∨ '_' ∈ pat) ∧
      (oracle_fetch_path pat = QueryPath.exactMatch ↔
        ¬('%' ∈ pat ∨ '_' ∈ pat)) ∧
      (mssql_fetch_path pat = QueryPath.likeMatch ↔ '%' ∈ pat ∨ '_' ∈ pat) ∧
      (mssql_fetch_path pat = QueryPath.exactMatch ↔
        ¬('%' ∈ pat ∨ '_' ∈ pat)) := by
  intro pat
  have hb : is_like_pattern pat = true ↔ '%' ∈ pat ∨ '_' ∈ pat := by
    unfold is_like_pattern
    simp
  refine ⟨hb, ?_⟩
  by_cases h : '%' ∈ pat ∨ '_' ∈ pat
  · have hl : is_like_pattern pat = true := hb.mpr h
    simp [oracle_fetch_path, mssql_fetch_path, mssql_like_flag, hl, h]
  · have hl : is_like_pattern pat = false := by
      cases hbl : is_like_pattern pat
      · rfl
      · exact absurd (hb.mp hbl) h
    simp [oracle_fetch_path, mssql_fetch_path, mssql_like_flag, hl, h]

/-- Witness for C2 at the spec's own example patterns. -/
theorem claim_C2_witness :
    oracle_fetch_path "ABC%".toList = QueryPath.likeMatch ∧
    mssql_fetch_path "ABC%".toList = QueryPath.likeMatch ∧
    oracle_fetch_path "TXD2BV01".toList = QueryPath.exactMatch ∧
    mssql_fetch_path "TXD2BV01".toList = QueryPath.exactMatch := by
  refine ⟨?_, ?_, ?_, ?_⟩
  · exact (claim_C2_pattern_dispatch _).2.1.mpr (by decide)
  · exact (claim_C2_pattern_dispatch _).2.2.2.1.mpr (by decide)
  · exact (claim_C2_pattern_dispatch _).2.2.1.mpr (by decide)
  · exact (claim_C2_pattern_dispatch _).2.2.2.2.mpr (by decide)

/-- C5: the foreign-key map retains at most one target per column — the map
value is exactly the `ReferencedTable.ReferencedColumn` of the LAST catalog
row for that column (last write wins), and `none` when no row mentions it.
The fold is the loop shared verbatim by both backends' `collect_meta`. -/
theorem claim_C5_fk_last_wins :
    ∀ (rows : List FkRow) (col : Str),
      buildFkMap rows col =
        (lastFkRow rows col).map fun r => r.2.1 ++ '.' :: r.2.2 := by
  intro rows col
  have h := buildFkMap_from rows emptyProps col
  unfold buildFkMap
  rw [h]
  cases lastFkRow rows col <;> simp [emptyProps]

/-- C8: the PK cell is `Y` exactly when the column name is in the
primary-key set, and empty otherwise (cell shared by both renderers). -/
theorem claim_C8_pk_cell :
    ∀ (pk_cols : List Str) (name : Str),
      (pk_cell pk_cols name = ['Y'] ↔ name ∈ pk_cols) ∧
      (pk_cell pk_cols name = [] ↔ name ∉ pk_cols) := by
  intro pk_cols name
  unfold pk_cell
  by_cases h : name ∈ pk_cols
  · simp [h]
  · simp [h]

/-- Witness for C8 on a concrete primary-key set. -/
theorem claim_C8_witness :
    pk_cell ["ID".toList] "ID".toList = ['Y'] ∧
    pk_cell ["ID".toList] "NAME".toList = [] := by
  exact ⟨(claim_C8_pk_cell _ _).1.mpr (by decide),
    (claim_C8_pk_cell _ _).2.mpr (by decide)⟩

/-- C9: the FK cell carries the arrow annotation with the referenced
`Table.Column` in inline code exactly when the foreign-key map records a
target for the column, and is empty otherwise. -/
theorem claim_C9_fk_cell :
    ∀ (rows : List FkRow) (name : Str),
      (buildFkMap rows name = none → fk_cell (buildFkMap rows) name = []) ∧
      (∀ t, buildFkMap rows name = some t →
          fk_cell (buildFkMap rows) name = "FK → `".toList ++ t ++ ['`'] ∧
          fk_cell (buildFkMap rows) name ≠ []) := by
  intro rows name
  constructor
  · intro h
    simp [fk_cell, h]
  · intro t ht
    have h2 := buildFkMap_from rows emptyProps name
    have ht2 : (rows.foldl
        (fun m2 r => setProp m2 r.1 (r.2.1 ++ '.' :: r.2.2)) emptyProps)
          name = some t := ht
    rw [ht2] at h2
    have hdot : ('.' : Char) ∈ t := by
      cases hlf : lastFkRow rows name with
      | none =>
          rw [hlf] at h2
          exact absurd h2 (by simp [emptyProps])
      | some r =>
          rw [hlf] at h2
          have h3 : t = r.2.1 ++ '.' :: r.2.2 := by injection h2
          rw [h3]
          exact List.mem_append.mpr (Or.inr (List.mem_cons_self _ _))
    have htne : t ≠ [] := by
      intro he
      rw [he] at hdot
      exact absurd hdot (List.not_mem_nil _)
    constructor
    · simp only [fk_cell, ht, Option.getD_some]
      rw [if_neg htne]
    · simp only [fk_cell, ht, Option.getD_some]
      rw [if_neg htne]
      simp

/-- Witness for C9 on a concrete foreign-key catalog row. -/
theorem claim_C9_witness :
    fk_cell (buildFkMap [("A".toList, "T".toList, "B".toList)]) "A".toList =
      "FK → `".toList ++ "T.B".toList ++ ['`'] ∧
    fk_cell (buildFkMap [("A".toList, "T".toList, "B".toList)]) "X".toList =
      [] := by
  exact ⟨((claim_C9_fk_cell _ _).2 "T.B".toList (by decide)).1,
    (claim_C9_fk_cell _ _).1 (by decide)⟩

/-- C3: the config loader skips lines that strip to empty or start with `#`,
splits every remaining line containing `=` at the FIRST `=` into a stripped
key and stripped value, silently drops lines without `=` (the loop body is a
total function — no malformed line raises an error), and the loaded value of
any key is the one contributed by the last line that defines it. -/
theorem claim_C3_load_properties :
    (∀ (m : PropsMap) (line : Str),
        pyStrip line = [] ∨ (pyStrip line).head? = some '#' →
        processLine m line = m) ∧
    (∀ (m : PropsMap) (line : Str), '=' ∉ pyStrip line →
        processLine m line = m) ∧
    (∀ (m : PropsMap) (line a b : Str),
        pyStrip line = a ++ '=' :: b → '=' ∉ a →
        (a ++ '=' :: b).head? ≠ some '#' →
        processLine m line = setProp m (pyStrip a) (pyStrip b)) ∧
    (∀ (lines : List Str) (k : Str),
        load_properties lines k = lastDef lines k) := by
  refine ⟨?_, ?_, ?_, ?_⟩
  · intro m line h
    unfold processLine
    rcases h with h | h
    · simp [h]
    · by_cases h0 : pyStrip line = []
      · simp [h0]
      · simp [h0, h]
  · intro m line h
    unfold processLine
    by_cases h0 : pyStrip line = []
    · simp [h0]
    · by_cases h1 : (pyStrip line).head? = some '#'
      · simp [h0, h1]
      · simp [h0, h1, h]
  · intro m line a b hsplit hnoeq hhash
    have hne : pyStrip line ≠ [] := by
      rw [hsplit]
      simp
    have hin : '=' ∈ pyStrip line := by
      rw [hsplit]
      exact List.mem_append.mpr (Or.inr (List.mem_cons_self _ _))
    have hh : (pyStrip line).head? ≠ some '#' := by
      rw [hsplit]
      exact hhash
    unfold processLine
    simp only [if_neg hne, if_neg hh, if_pos hin]
    rw [hsplit, splitFirstEq_spec b hnoeq]
  · intro lines k
    have h := load_properties_from lines emptyProps k
    unfold load_properties
    rw [h]
    cases lastDef lines k <;> simp [emptyProps]

/-- Witness for C3: a comment line, a line without `=`, a trimmed
key/value split, and a duplicate key resolved to the later value. -/
theorem claim_C3_witness :
    processLine emptyProps "# DB_TYPE = x".toList = emptyProps ∧
    processLine emptyProps "no equals here".toList = emptyProps ∧
    processLine emptyProps " KEY = value ".toList =
      setProp emptyProps "KEY".toList "value".toList ∧
    load_properties ["DB_TYPE=a".toList, "DB_TYPE = b".toList]
      "DB_TYPE".toList = some ['b'] := by
  refine ⟨?_, ?_, ?_, ?_⟩
  · exact claim_C3_load_properties.1 _ _ (Or.inr (by decide))
  · exact claim_C3_load_properties.2.1 _ _ (by decide)
  · exact claim_C3_load_properties.2.2.1 emptyProps " KEY = value ".toList
      "KEY ".toList " value".toList (by decide) (by decide) (by decide)
  · rw [claim_C3_load_properties.2.2.2 _ _]
    decide

/-- C1 counterexample: an Oracle `NUMBER(10,0)` column (precision 10,
scale 0, catalog length 22).  The scale is present but trivial (zero), so the
claim's rule (`claimLens`) renders `10`, yet the code (`oracle_lens`, which
tests only `data_scale is not None`) renders `10,0`. -/
theorem claim_C1_counterexample :
    oracle_lens
      { column_name := ['C'], data_type := "NUMBER".toList,
        data_length := some 22, data_precision := some 10,
        data_scale := some 0, nullable := ['Y'], data_default := none,
        column_comment := none } = "10,0".toList ∧
    claimLens (some 10) (some 0) (some 22) = "10".toList ∧
    ("10,0".toList : Str) ≠ "10".toList := by
  refine ⟨?_, ?_, ?_⟩ <;> decide

/-- C1 (amended): the Oracle cell is `precision,scale` whenever precision and
scale are both present (trivial zero scale included), `precision` alone when
precision is present and scale is absent, the max length when precision is
absent and a length is present, else empty; the SQL Server cell is
`precision,scale` only when precision is present and nonzero and scale is
present, and in every other case falls back to the max length when present,
else empty. -/
theorem claim_C1_lens_cells :
    (∀ (c : OracleCol) (p s : Int),
        c.data_precision = some p → c.data_scale = some s →
        oracle_lens c = intChars p ++ ',' :: intChars s) ∧
    (∀ (c : OracleCol) (p : Int),
        c.data_precision = some p → c.data_scale = none →
        oracle_lens c = intChars p) ∧
    (∀ (c : OracleCol) (l : Int),
        c.data_precision = none → c.data_length = some l →
        oracle_lens c = intChars l) ∧
    (∀ c : OracleCol,
        c.data_precision = none → c.data_length = none →
        oracle_lens c = []) ∧
    (∀ (c : MssqlCol) (p s : Int),
        c.precision = some p → p ≠ 0 → c.scale = some s →
        mssql_lens c = intChars p ++ ',' :: intChars s) ∧
    (∀ (c : MssqlCol) (l : Int),
        (c.precision = none ∨ c.precision = some 0 ∨ c.scale = none) →
        c.max_length = some l → mssql_lens c = intChars l) ∧
    (∀ c : MssqlCol,
        (c.precision = none ∨ c.precision = some 0 ∨ c.scale = none) →
        c.max_length = none → mssql_lens c = []) := by
  have hcond : ∀ c : MssqlCol,
      (c.precision = none ∨ c.precision = some 0 ∨ c.scale = none) →
      (pyTruthy c.precision && c.scale.isSome &&
        (c.precision.getD 0 != 0)) = false := by
    intro c h
    rcases h with h | h | h <;> simp [pyTruthy, h]
  refine ⟨?_, ?_, ?_, ?_, ?_, ?_, ?_⟩
  · intro c p s hp hs
    simp only [oracle_lens, hp, hs]
  · intro c p hp hs
    simp only [oracle_lens, hp, hs]
  · intro c l hp hl
    simp only [oracle_lens, hp, hl]
  · intro c hp hl
    simp only [oracle_lens, hp, hl]
  · intro c p s hp hpnz hs
    have hc : (pyTruthy c.precision && c.scale.isSome &&
        (c.precision.getD 0 != 0)) = true := by
      simp [pyTruthy, hp, hs, hpnz]
    rw [mssql_lens, if_pos hc, hp, hs]
    simp
  · intro c l h hml
    rw [mssql_lens, if_neg (by rw [hcond c h]; exact Bool.false_ne_true), hml]
  · intro c h hml
    rw [mssql_lens, if_neg (by rw [hcond c h]; exact Bool.false_ne_true), hml]

/-- Witness for C1 (amended): a `NUMBER(10,2)` Oracle column, a plain
`VARCHAR2(255)` Oracle column, and a SQL Server `varchar(255)` column
(precision 0) rendered from the amended rule. -/
theorem claim_C1_witness :
    oracle_lens
      { column_name := ['C'], data_type := "NUMBER".toList,
        data_length := some 22, data_precision := some 10,
        data_scale := some 2, nullable := ['Y'], data_default := none,
        column_comment := none } = "10,2".toList ∧
    oracle_lens
      { column_name := ['C'], data_type := "VARCHAR2".toList,
        data_length := some 255, data_precision := none, data_scale := none,
        nullable := ['Y'], data_default := none, column_comment := none } =
      "255".toList ∧
    mssql_lens
      { column_name := ['C'], data_type := "varchar".toList,
        max_length := some 255, precision := some 0, scale := some 0,
        is_nullable := true, data_default := none, column_comment := none } =
      "255".toList := by
  refine ⟨?_, ?_, ?_⟩
  · exact claim_C1_lens_cells.1 _ 10 2 rfl rfl
  · exact claim_C1_lens_cells.2.2.1 _ 255 rfl rfl
  · exact claim_C1_lens_cells.2.2.2.2.2.1 _ 255 (Or.inr (Or.inl rfl)) rfl

/-- Separator-pipe count of an Oracle data row: 9 fixed separators plus the
naked pipes of the three cells that are NOT escaped and not pipe-free by
construction (name, type, FK cell); the Length, Nullable, PK, Default and
Comment cells never contribute. -/
theorem oracle_row_pipes (pk_cols : List Str) (fk_map : PropsMap)
    (c : OracleCol) :
    sepPipes (oracle_row pk_cols fk_map c) =
      9 + nakedPipes ' ' c.column_name + nakedPipes ' ' c.data_type +
        nakedPipes ' ' (fk_cell fk_map c.column_name) := by
  unfold oracle_row
  rw [sepPipes_md_row]
  simp only [default_cell, comment_cell]
  rw [nakedPipes_no_pipe (oracle_lens_no_pipe c),
    nakedPipes_no_pipe (oracle_nullable_no_pipe c),
    nakedPipes_md_escape, nakedPipes_md_escape,
    nakedPipes_no_pipe (pk_cell_no_pipe pk_cols c.column_name)]
  omega

/-- Separator-pipe count of a SQL Server data row (same shape). -/
theorem mssql_row_pipes (pk_cols : List Str) (fk_map : PropsMap)
    (c : MssqlCol) :
    sepPipes (mssql_row pk_cols fk_map c) =
      9 + nakedPipes ' ' c.column_name + nakedPipes ' ' c.data_type +
        nakedPipes ' ' (fk_cell fk_map c.column_name) := by
  unfold mssql_row
  rw [sepPipes_md_row]
  simp only [default_cell, comment_cell]
  rw [nakedPipes_no_pipe (mssql_lens_no_pipe c),
    nakedPipes_no_pipe (mssql_nullable_no_pipe c),
    nakedPipes_md_escape, nakedPipes_md_escape,
    nakedPipes_no_pipe (pk_cell_no_pipe pk_cols c.column_name)]
  omega

/-- C7: the Default cell is the raw default expression trimmed, with every
literal `|` replaced by `\|` (characterised by the two `md_escape` equations),
and empty when no default exists; every pipe in the escaped cell is guarded
by a backslash (`nakedPipes _ (md_escape s) = 0`), so whatever the default
contains, a row whose other unescaped cells are pipe-free keeps exactly the
9 separator pipes of an 8-column Markdown row — on both backends. -/
theorem claim_C7_default_escape :
    (default_cell none = []) ∧
    (∀ s : Str, default_cell (some s) = md_escape (pyStrip s)) ∧
    (∀ a b : Str, '|' ∉ a →
        md_escape (a ++ '|' :: b) = a ++ '\\' :: '|' :: md_escape b) ∧
    (∀ s : Str, '|' ∉ s → md_escape s = s) ∧
    (∀ (s : Str) (q : Char), nakedPipes q (md_escape s) = 0) ∧
    (∀ (pk_cols : List Str) (fk_map : PropsMap) (c : OracleCol),
        '|' ∉ c.column_name → '|' ∉ c.data_type →
        '|' ∉ fk_cell fk_map c.column_name →
        sepPipes (oracle_row pk_cols fk_map c) = 9) ∧
    (∀ (pk_cols : List Str) (fk_map : PropsMap) (c : MssqlCol),
        '|' ∉ c.column_name → '|' ∉ c.data_type →
        '|' ∉ fk_cell fk_map c.column_name →
        sepPipes (mssql_row pk_cols fk_map c) = 9) := by
  refine ⟨rfl, fun s => rfl, fun a b h => md_escape_append_pipe b h,
    fun s h => md_escape_no_pipe h, fun s q => nakedPipes_md_escape s q,
    ?_, ?_⟩
  · intro pk_cols fk_map c h1 h2 h3
    rw [oracle_row_pipes, nakedPipes_no_pipe h1, nakedPipes_no_pipe h2,
      nakedPipes_no_pipe h3]
  · intro pk_cols fk_map c h1 h2 h3
    rw [mssql_row_pipes, nakedPipes_no_pipe h1, nakedPipes_no_pipe h2,
      nakedPipes_no_pipe h3]

/-- Witness for C7: a trimmed, pipe-bearing default is escaped, and a
concrete row carrying it still has exactly 9 separator pipes. -/
theorem claim_C7_witness :
    default_cell (some " A|B ".toList) = "A\\|B".toList ∧
    md_escape ("ab".toList ++ '|' :: "cd".toList) = "ab\\|cd".toList ∧
    sepPipes (oracle_row [] emptyProps
      { column_name := ['C'], data_type := "VARCHAR2".toList,
        data_length := some 20, data_precision := none, data_scale := none,
        nullable := ['Y'], data_default := some " A|B ".toList,
        column_comment := some "with | pipe".toList }) = 9 := by
  refine ⟨?_, ?_, ?_⟩
  · rw [claim_C7_default_escape.2.1]
    decide
  · exact claim_C7_default_escape.2.2.1 "ab".toList "cd".toList (by decide)
  · exact claim_C7_default_escape.2.2.2.2.2.1 [] emptyProps _
      (by decide) (by decide) (by decide)

/-- C10: pipe escaping is applied only to the Default and Comment cells.
The separator-pipe count of a rendered row is 9 plus exactly the naked pipes
of the column name, the declared type and the FK cell — the Default and
Comment contributions vanish for EVERY input — so a pipe in the name, type or
referenced target is rendered unescaped and breaks the 8-column shape. -/
theorem claim_C10_unescaped_cells :
    (∀ (pk_cols : List Str) (fk_map : PropsMap) (c : OracleCol),
        sepPipes (oracle_row pk_cols fk_map c) =
          9 + nakedPipes ' ' c.column_name + nakedPipes ' ' c.data_type +
            nakedPipes ' ' (fk_cell fk_map c.column_name)) ∧
    (∀ (pk_cols : List Str) (fk_map : PropsMap) (c : MssqlCol),
        sepPipes (mssql_row pk_cols fk_map c) =
          9 + nakedPipes ' ' c.column_name + nakedPipes ' ' c.data_type +
            nakedPipes ' ' (fk_cell fk_map c.column_name)) ∧
    (∀ (pk_cols : List Str) (fk_map : PropsMap) (c : OracleCol),
        nakedPipes ' ' c.column_name ≠ 0 →
        sepPipes (oracle_row pk_cols fk_map c) ≠ 9) := by
  refine ⟨oracle_row_pipes, mssql_row_pipes, ?_⟩
  intro pk_cols fk_map c h
  rw [oracle_row_pipes]
  omega

/-- Witness for C10: a column name containing a bare pipe yields a row with
more than the 9 structural separators. -/
theorem claim_C10_witness :
    sepPipes (oracle_row [] emptyProps
      { column_name := "A|B".toList, data_type := "CHAR".toList,
        data_length := some 1, data_precision := none, data_scale := none,
        nullable := ['N'], data_default := none,
        column_comment := none }) ≠ 9 := by
  exact claim_C10_unescaped_cells.2.2 [] emptyProps _ (by decide)

/-- C6: as long as no rendered field smuggles in a newline, the rendered
document splits into exactly one heading line naming the table, a blank
line, the fixed 8-column header row, the separator row, and one data row per
column in catalog order — one heading plus N+3 further lines — on both
backends. -/
theorem claim_C6_document_structure :
    (∀ (table : Str) (cols : List OracleCol) (pk_cols : List Str)
        (fk_map : PropsMap),
        '\n' ∉ table →
        (∀ c ∈ cols, '\n' ∉ c.column_name ∧ '\n' ∉ c.data_type ∧
          (∀ s, c.data_default = some s → '\n' ∉ s) ∧
          (∀ s, c.column_comment = some s → '\n' ∉ s) ∧
          (∀ t, fk_map c.column_name = some t → '\n' ∉ t)) →
        splitNl (oracle_write_md table cols pk_cols fk_map) =
          ("## 表格名稱:".toList ++ table) :: [] :: header_row :: align_row ::
            cols.map (oracle_row pk_cols fk_map) ∧
        (splitNl (oracle_write_md table cols pk_cols fk_map)).length =
          cols.length + 4) ∧
    (∀ (table : Str) (cols : List MssqlCol) (pk_cols : List Str)
        (fk_map : PropsMap),
        '\n' ∉ table →
        (∀ c ∈ cols, '\n' ∉ c.column_name ∧ '\n' ∉ c.data_type ∧
          (∀ s, c.data_default = some s → '\n' ∉ s) ∧
          (∀ s, c.column_comment = some s → '\n' ∉ s) ∧
          (∀ t, fk_map c.column_name = some t → '\n' ∉ t)) →
        splitNl (mssql_write_md table cols pk_cols fk_map) =
          ("## 表格名稱:".toList ++ table) :: [] :: header_row :: align_row ::
            cols.map (mssql_row pk_cols fk_map) ∧
        (splitNl (mssql_write_md table cols pk_cols fk_map)).length =
          cols.length + 4) := by
  constructor
  · intro table cols pk_cols fk_map htable hcols
    have hrows : ∀ r ∈ cols.map (oracle_row pk_cols fk_map), '\n' ∉ r := by
      intro r hr
      rcases List.mem_map.mp hr with ⟨c, hc, rfl⟩
      rcases hcols c hc with ⟨h1, h2, h3, h4, h5⟩
      exact oracle_row_no_nl pk_cols fk_map c h1 h2 h3 h4 h5
    have hsd := splitNl_doc table (cols.map (oracle_row pk_cols fk_map))
      htable hrows
    unfold oracle_write_md
    refine ⟨hsd, ?_⟩
    rw [hsd]
    simp
  · intro table cols pk_cols fk_map htable hcols
    have hrows : ∀ r ∈ cols.map (mssql_row pk_cols fk_map), '\n' ∉ r := by
      intro r hr
      rcases List.mem_map.mp hr with ⟨c, hc, rfl⟩
      rcases hcols c hc with ⟨h1, h2, h3, h4, h5⟩
      exact mssql_row_no_nl pk_cols fk_map c h1 h2 h3 h4 h5
    have hsd := splitNl_doc table (cols.map (mssql_row pk_cols fk_map))
      htable hrows
    unfold mssql_write_md
    refine ⟨hsd, ?_⟩
    rw [hsd]
    simp

/-- Witness for C6: a one-column table renders as heading + blank + header +
separator + 1 data row (5 lines, i.e. N+3 further lines for N = 1). -/
theorem claim_C6_witness :
    (splitNl (oracle_write_md "TXD2BV01".toList
      [{ column_name := "ID".toList, data_type := "NUMBER".toList,
         data_length := some 22, data_precision := some 10,
         data_scale := some 0, nullable := ['N'], data_default := none,
         column_comment := none }] ["ID".toList] emptyProps)).length =
      1 + 4 := by
  exact (claim_C6_document_structure.1 "TXD2BV01".toList _ ["ID".toList]
    emptyProps (by decide)
    (by
      intro c hc
      rcases List.mem_singleton.mp hc with rfl
      refine ⟨by decide, by decide, ?_, ?_, ?_⟩
      · intro s hs
        cases hs
      · intro s hs
        cases hs
      · intro t ht
        cases ht)).2

/-- C4: a missing argument, a missing config file and an unsupported
`DB_TYPE` terminate with the distinct non-zero statuses 1, 2 and 3 and a
message, while a pattern matching zero tables ends with status 0, one
informational message and no output files, on both backends. -/
theorem claim_C4_exit_paths :
    (∀ env : Env, env.argv.length < 2 →
        mainModel env =
          { exitCode := 1, messages := [usage_msg], files := [] }) ∧
    (∀ env : Env, 2 ≤ env.argv.length → env.propLines = none →
        mainModel env =
          { exitCode := 2, messages := [missing_conf_msg], files := [] }) ∧
    (∀ (env : Env) (lines : List Str), 2 ≤ env.argv.length →
        env.propLines = some lines →
        pyLower ((load_properties lines "DB_TYPE".toList).getD []) ≠
          "oracle".toList →
        pyLower ((load_properties lines "DB_TYPE".toList).getD []) ≠
          "sqlserver".toList →
        mainModel env =
          { exitCode := 3, messages := [bad_dbtype_msg], files := [] }) ∧
    ((1 : Nat) ≠ 0 ∧ (2 : Nat) ≠ 0 ∧ (3 : Nat) ≠ 0 ∧ (1 : Nat) ≠ 2 ∧
      (1 : Nat) ≠ 3 ∧ (2 : Nat) ≠ 3) ∧
    (∀ (env : Env) (lines : List Str), 2 ≤ env.argv.length →
        env.propLines = some lines →
        pyLower ((load_properties lines "DB_TYPE".toList).getD []) =
          "oracle".toList →
        env.oracleTables = [] →
        mainModel env =
          { exitCode := 0, messages := [oracle_nomatch_msg], files := [] }) ∧
    (∀ (env : Env) (lines : List Str), 2 ≤ env.argv.length →
        env.propLines = some lines →
        pyLower ((load_properties lines "DB_TYPE".toList).getD []) =
          "sqlserver".toList →
        env.mssqlTables = [] →
        mainModel env =
          { exitCode := 0, messages := [mssql_nomatch_msg], files := [] }) := by
  refine ⟨?_, ?_, ?_, by omega, ?_, ?_⟩
  · intro env h
    unfold mainModel
    rw [if_pos h]
  · intro env h hp
    unfold mainModel
    rw [if_neg (by omega), hp]
  · intro env lines h hp hd1 hd2
    unfold mainModel
    rw [if_neg (by omega), hp]
    simp only [if_neg hd1, if_neg hd2]
  · intro env lines h hp hd ht
    unfold mainModel
    rw [if_neg (by omega), hp]
    simp only [if_pos hd, ht, if_pos rfl, if_true]
  · intro env lines h hp hd ht
    have hd1 : pyLower ((load_properties lines "DB_TYPE".toList).getD []) ≠
        "oracle".toList := by
      rw [hd]
      decide
    unfold mainModel
    rw [if_neg (by omega), hp]
    simp only [if_neg hd1, if_pos hd, ht, if_pos rfl, if_true]

/-- Witness for C4: each exit path at a concrete environment. -/
theorem claim_C4_witness :
    mainModel (envFor [] none) =
      { exitCode := 1, messages := [usage_msg], files := [] } ∧
    mainModel (envFor ["tablemd".toList, "T1".toList] none) =
      { exitCode := 2, messages := [missing_conf_msg], files := [] } ∧
    mainModel (envFor ["tablemd".toList, "T1".toList]
        (some ["DB_TYPE = postgres".toList])) =
      { exitCode := 3, messages := [bad_dbtype_msg], files := [] } ∧
    mainModel (envFor ["tablemd".toList, "T1".toList]
        (some ["DB_TYPE = Oracle".toList])) =
      { exitCode := 0, messages := [oracle_nomatch_msg], files := [] } ∧
    mainModel (envFor ["tablemd".toList, "T1".toList]
        (some ["DB_TYPE=sqlserver".toList])) =
      { exitCode := 0, messages := [mssql_nomatch_msg], files := [] } := by
  refine ⟨?_, ?_, ?_, ?_, ?_⟩
  · exact claim_C4_exit_paths.1 _ (by decide)
  · exact claim_C4_exit_paths.2.1 _ (by decide) rfl
  · exact claim_C4_exit_paths.2.2.1 _ _ (by decide) rfl (by decide) (by decide)
  · exact claim_C4_exit_paths.2.2.2.2.1 _ _ (by decide) rfl (by decide) rfl
  · exact claim_C4_exit_paths.2.2.2.2.2 _ _ (by decide) rfl (by decide) rfl

end Tablemd
